import Mathlib

/-
Verification of `src/nsls2/io/avizo_io.py` (AmiraMesh/Avizo reader).

The module is Python 2 code (its use of `filter` returning lists is
load-bearing in `_create_md_dict`), so the embedding follows Python 2 and
the numpy of the module's era: `np.fromstring` exists, and an index with
several ellipses treats the extra ellipses as full slices.

Shallow embedding conventions:
  * a file / the binary payload is a `List Char` (Python 2 `str` bytes);
  * header token lines are `List String`;
  * Python exceptions are an explicit `PyErr` error type in `Except`;
  * the unbounded `while True` loop of `_read_amira` takes explicit fuel,
    `none` meaning the loop has not terminated yet;
  * the decoded 3-D array holds raw little-endian element byte groups
    (`Chunk`); numeric reinterpretation is captured by the element width
    that numpy derives from the dtype string the source constructs.
-/

set_option maxRecDepth 8000

namespace Avizo

/-- Python exceptions that the functions of `avizo_io.py` can raise,
made explicit as an error type. -/
inductive PyErr where
  | keyError (key : String)
  | typeError (msg : String)
  | valueError (msg : String)
  | nameError (var : String)
  | indexError
deriving DecidableEq, Repr

/-- One `f.readline()` on the remaining character stream: the line read
(including its trailing newline when one is present) together with the rest
of the stream.  At end of file the line is empty, as in Python. -/
def readLine : List Char → List Char × List Char
  | [] => ([], [])
  | c :: cs =>
    if c = '\n' then ([c], cs)
    else
      let p := readLine cs
      (c :: p.1, p.2)

/-- The sentinel comparison value of `_read_amira`: the line must carry its
trailing newline to match. -/
def sentinelLine : List Char := "# Data section follows\n".toList

/-- The `while True` loop of `_read_amira`, with explicit fuel.  Each
iteration reads one line and appends it to the header; on the sentinel line
one further line is read and discarded and the rest of the file (`f.read()`)
becomes the payload.  `none` models the loop still running: the source has
no exit other than the sentinel match. -/
def readAmiraLoop : Nat → List Char → List (List Char) → Option (List (List Char) × List Char)
  | 0, _, _ => none
  | fuel + 1, cs, acc =>
    let p := readLine cs
    let acc2 := acc ++ [p.1]
    if p.1 = sentinelLine then
      some (acc2, (readLine p.2).2)
    else
      readAmiraLoop fuel p.2 acc2

/-- `_read_amira`: split a file into raw header lines and the payload. -/
def readAmira (fuel : Nat) (file : List Char) : Option (List (List Char) × List Char) :=
  readAmiraLoop fuel file []

/-- Python `str.strip` with one strip character: remove every copy of `c`
from both ends. -/
def stripChar (c : Char) (l : List Char) : List Char :=
  ((l.dropWhile (· = c)).reverse.dropWhile (· = c)).reverse

/-- Python `str.split(" ")`: cut at every single space, keeping the empty
pieces produced by runs of spaces (they are filtered out afterwards). -/
def splitOnSpace : List Char → List (List Char)
  | [] => [[]]
  | c :: cs =>
    let r := splitOnSpace cs
    if c = ' ' then [] :: r
    else
      match r with
      | [] => [[c]]
      | h :: t => (c :: h) :: t

/-- `_sort_amira_header`: strip newlines from each raw line, split it on
spaces, drop the empty tokens (`filter(None, ...)` per line, applied
repeatedly but idempotent), then drop the lines that became empty
(`filter(None, header_list)`). -/
def sortAmiraHeader (lines : List (List Char)) : List (List String) :=
  (lines.map fun l =>
    ((splitOnSpace (stripChar '\n' l)).map List.asString).filter (· ≠ "")).filter (· ≠ [])

/-- Python `list.index`: position of the first occurrence, `none` standing
for the `ValueError` the source catches. -/
def idxOf? (s : String) : List String → Option Nat
  | [] => none
  | t :: ts => if t = s then some 0 else (idxOf? s ts).map (· + 1)

/-- Digit-string value, `none` when empty or containing a non-digit. -/
def digitsToNat? (cs : List Char) : Option Nat :=
  if cs ≠ [] ∧ cs.all Char.isDigit then
    some (cs.foldl (fun a c => a * 10 + (c.toNat - 48)) 0)
  else none

/-- Python `int()` on a header token: an optional sign followed by at least
one digit (`ValueError` otherwise, which the source catches). -/
def pyInt? (s : String) : Option Int :=
  match s.toList with
  | '-' :: rest => (digitsToNat? rest).map (fun n => -(n : Int))
  | '+' :: rest => (digitsToNat? rest).map (fun n => (n : Int))
  | cs => (digitsToNat? cs).map (fun n => (n : Int))

/-- Split a numeric literal at its exponent marker, if any. -/
def splitAtExp : List Char → List Char × Option (List Char)
  | [] => ([], none)
  | c :: cs =>
    if c = 'e' ∨ c = 'E' then ([], some cs)
    else
      let p := splitAtExp cs
      (c :: p.1, p.2)

/-- Mantissa of a Python float literal: digits with an optional fractional
part, or a leading dot followed by digits. -/
def mantOk (cs : List Char) : Bool :=
  let ip := cs.takeWhile Char.isDigit
  match cs.drop ip.length with
  | [] => ip ≠ []
  | '.' :: fp => fp.all Char.isDigit ∧ (ip ≠ [] ∨ fp ≠ [])
  | _ => false

/-- Optionally signed nonempty digit string (a float exponent). -/
def signedDigitsOk : List Char → Bool
  | '-' :: r => r.all Char.isDigit ∧ r ≠ []
  | '+' :: r => r.all Char.isDigit ∧ r ≠ []
  | r => r.all Char.isDigit ∧ r ≠ []

/-- Python `float()` on a header token: does the conversion succeed?  Only
success or failure steers the source's try/except cascade; the numeric value
of a bounding-box entry is never consumed by the code under verification, so
the record below stores the raw tokens. -/
def pyFloatOk (s : String) : Bool :=
  let cs :=
    match s.toList with
    | '-' :: r => r
    | '+' :: r => r
    | r => r
  let p := splitAtExp cs
  mantOk p.1 && (match p.2 with | none => true | some e => signedDigitsOk e)

/-- The metadata dictionary built by `_create_md_dict`.  Optional fields
model keys that may be absent from the Python dict.  `array_dimensions`
is the `(x, y, z)` triple of `int()`-cast dimensions; the bounding box keeps
the six raw tokens whose `float()` casts succeeded. -/
structure MdDict where
  software_src : Option String := none
  data_format : Option String := none
  data_format_version : Option String := none
  array_dimensions : Option (Int × Int × Int) := none
  data_type : Option String := none
  coord_type : Option String := none
  bounding_box : Option (String × String × String × String × String × String) := none
  units : Option String := none
  coordinates : Option String := none
deriving DecidableEq, Repr

/-- Outcome of one successful branch of `_create_md_dict`'s try/except
cascade on one line.  In the `Units` branch the source stores `units` first
and only then reads token 1 of the next line, and an `IndexError` there is
caught after the store, so the coordinate token is optional. -/
inductive Directive where
  | dims (x y z : Int)
  | dtype (t : String)
  | coord (t : String)
  | bbox (b : String × String × String × String × String × String)
  | units (u : String) (c : Option String)
deriving DecidableEq, Repr

/-- `define` branch: tokens at `index('define') + 2, +3, +4`, each cast with
`int()`; any missing token or failed cast aborts the branch. -/
def tryDefine (row : List String) : Option (Int × Int × Int) := do
  let i ← idxOf? "define" row
  let tx ← row.get? (i + 2)
  let x ← pyInt? tx
  let ty ← row.get? (i + 3)
  let y ← pyInt? ty
  let tz ← row.get? (i + 4)
  let z ← pyInt? tz
  pure (x, y, z)

/-- `Content` branch: token at `index('Content') + 2`. -/
def tryContent (row : List String) : Option String := do
  let i ← idxOf? "Content" row
  row.get? (i + 2)

/-- `CoordType` branch: token at `index('CoordType') + 1`. -/
def tryCoordType (row : List String) : Option String := do
  let i ← idxOf? "CoordType" row
  row.get? (i + 1)

/-- `BoundingBox` branch: tokens at offsets 1 through 6, each of which must
survive `float()`. -/
def tryBBox (row : List String) :
    Option (String × String × String × String × String × String) := do
  let i ← idxOf? "BoundingBox" row
  let t1 ← row.get? (i + 1)
  guard (pyFloatOk t1)
  let t2 ← row.get? (i + 2)
  guard (pyFloatOk t2)
  let t3 ← row.get? (i + 3)
  guard (pyFloatOk t3)
  let t4 ← row.get? (i + 4)
  guard (pyFloatOk t4)
  let t5 ← row.get? (i + 5)
  guard (pyFloatOk t5)
  let t6 ← row.get? (i + 6)
  guard (pyFloatOk t6)
  pure (t1, t2, t3, t4, t5, t6)

/-- `Units` branch: `units` is the token at `index('Units') + 2`; the
coordinate value is token 1 of the next line when that line exists and is
long enough. -/
def tryUnits (row : List String) (next? : Option (List String)) :
    Option (String × Option String) := do
  let i ← idxOf? "Units" row
  let u ← row.get? (i + 2)
  pure (u, next?.bind (·.get? 1))

/-- One pass of the nested try/except cascade of `_create_md_dict` on one
tokenized line: the first branch whose extraction succeeds wins and the
remaining branches are skipped; a line matching no branch is ignored. -/
def lineDirective (row : List String) (next? : Option (List String)) : Option Directive :=
  match tryDefine row with
  | some (x, y, z) => some (.dims x y z)
  | none =>
    match tryContent row with
    | some t => some (.dtype t)
    | none =>
      match tryCoordType row with
      | some t => some (.coord t)
      | none =>
        match tryBBox row with
        | some b => some (.bbox b)
        | none =>
          match tryUnits row next? with
          | some (u, c) => some (.units u c)
          | none => none

/-- Store one extracted directive into the dictionary (a plain key
assignment in the source, overwriting any earlier value). -/
def applyDirective (md : MdDict) : Directive → MdDict
  | .dims x y z => { md with array_dimensions := some (x, y, z) }
  | .dtype t => { md with data_type := some t }
  | .coord t => { md with coord_type := some t }
  | .bbox b => { md with bounding_box := some b }
  | .units u c =>
    match c with
    | some cv => { md with units := some u, coordinates := some cv }
    | none => { md with units := some u }

/-- Effect of scanning one line, given the following line (needed by the
`Units` branch). -/
def lineEffect (md : MdDict) (row : List String) (next? : Option (List String)) : MdDict :=
  match lineDirective row next? with
  | none => md
  | some d => applyDirective md d

/-- The `for row in range(len(header_list))` scan of `_create_md_dict`,
carried out over every line, the first included. -/
def scanLines (md : MdDict) : List (List String) → MdDict
  | [] => md
  | row :: rest => scanLines (lineEffect md row rest.head?) rest

/-- `_create_md_dict`: `software_src`, `data_format` and
`data_format_version` are read unconditionally from positions 1, 2 and 3 of
the first line — nothing catches the `IndexError` when the line is too
short — and then every line is scanned with the directive cascade. -/
def createMdDict : List (List String) → Except PyErr MdDict
  | [] => .error .indexError
  | h :: rest =>
    match h.get? 1, h.get? 2, h.get? 3 with
    | some a, some b, some c =>
      .ok (scanLines
        { software_src := some a, data_format := some b, data_format_version := some c }
        (h :: rest))
    | _, _, _ => .error .indexError

/-- One decoded payload element: the raw group of bytes that numpy would
reinterpret at the declared width (the claims under proof concern widths,
counts and ordering, never float arithmetic). -/
abbrev Chunk := List Char

/-- The value held in the 3-D `VoxelArray`, z-major nested lists. -/
abbrev Arr3 := List (List (List Chunk))

/-- `am_format_dict` from the source, verbatim. -/
def amFormatDict (s : String) : Option String :=
  if s = "BINARY-LITTLE-ENDIAN" then some "<"
  else if s = "BINARY" then some ">"
  else if s = "ASCII" then some "unknown"
  else none

/-- `am_dtype_dict` from the source, verbatim: note that `short` and
`ushort` map to the strings `h4` and `H4`. -/
def amDtypeDict (s : String) : Option String :=
  if s = "float" then some "f4"
  else if s = "short" then some "h4"
  else if s = "ushort" then some "H4"
  else if s = "byte" then some "b"
  else none

/-- Modelled from numpy (an external dependency of the source): the element
width in bytes that `np.dtype` assigns to a type string, `none` when numpy
rejects the string (`TypeError: data type not understood`).  After an
optional byte-order character, numpy accepts a one-character type code on
its own (`b` signed byte, `h`/`H` two-byte short, `f` four-byte float, `d`
eight-byte double), or a generic kind character among `i`, `u`, `f`, `c`
followed by an item size in bytes.  A standalone code followed by digits —
such as the `h4`/`H4` the source builds for `short`/`ushort` — belongs to
neither family and is not understood, in every numpy release. -/
def npDtypeWidth (s : String) : Option Nat :=
  let cs :=
    match s.toList with
    | c :: rest => if c = '<' ∨ c = '>' ∨ c = '=' ∨ c = '|' then rest else c :: rest
    | [] => []
  match cs with
  | [c] =>
    if c = 'b' then some 1
    else if c = 'h' ∨ c = 'H' then some 2
    else if c = 'f' then some 4
    else if c = 'd' then some 8
    else none
  | c :: ds =>
    if (c = 'i' ∨ c = 'u' ∨ c = 'f' ∨ c = 'c') ∧ ds ≠ [] ∧ ds.all Char.isDigit then
      digitsToNat? ds
    else none
  | [] => none

/-- Split a flat list into `rows` consecutive groups of `cols` elements:
numpy's row-major reshape layout (short trailing groups can only arise when
the element count is wrong, and are what `resize` pads). -/
def takeGroups (rows cols : Nat) (l : List α) : List (List α) :=
  match rows with
  | 0 => []
  | r + 1 => l.take cols :: takeGroups r cols (l.drop cols)

/-- `flt_values.resize(Zdim, Ydim, Xdim)` on the freshly built 1-D array:
numpy's in-place resize keeps the first `total` elements, zero-filling when
the array is too short — it truncates or pads, it does not raise on a count
mismatch. -/
def resizeElems (total width : Nat) (l : List Chunk) : List Chunk :=
  (l ++ List.replicate (total - l.length) (List.replicate width (Char.ofNat 0))).take total

/-- The flip-independent part of `_cnvrt_amira_data_2numpy`, in the
source's evaluation order: the three dimensions are read from
`header_dict['array_dimensions']` first, the payload is stripped of
newlines at both ends, and only the `BINARY-LITTLE-ENDIAN` branch assigns
`flt_values`, so every other `data_format` value reaches
`flt_values.resize` with the name unbound (`NameError`). -/
def cnvrtCore (amData : List Char) (md : MdDict) : Except PyErr Arr3 :=
  match md.array_dimensions with
  | none => .error (.keyError "array_dimensions")
  | some (x, y, z) =>
    match md.data_format with
    | none => .error (.keyError "data_format")
    | some fmt =>
      if fmt = "BINARY-LITTLE-ENDIAN" then
        match amFormatDict fmt with
        | none => .error (.keyError fmt)
        | some pre =>
          match md.data_type with
          | none => .error (.keyError "data_type")
          | some dt =>
            match amDtypeDict dt with
            | none => .error (.keyError dt)
            | some code =>
              match npDtypeWidth (pre ++ code) with
              | none => .error (.typeError "data type not understood")
              | some w =>
                if (stripChar '\n' amData).length % w ≠ 0 then
                  .error (.valueError "string size must be a multiple of element size")
                else if x < 0 ∨ y < 0 ∨ z < 0 then
                  .error (.valueError "negative dimensions not allowed")
                else
                  .ok ((takeGroups z.toNat (y.toNat * x.toNat)
                    (resizeElems (z.toNat * (y.toNat * x.toNat)) w
                      (takeGroups ((stripChar '\n' amData).length / w) w
                        (stripChar '\n' amData)))).map (takeGroups y.toNat x.toNat))
      else .error (.nameError "flt_values")

/-- `_cnvrt_amira_data_2numpy`: decode, then apply the optional z-flip
`flt_values[::-1, ..., ...]` — under the numpy of the source's era the extra
ellipses act as full slices, so exactly axis 0 is reversed. -/
def cnvrt (amData : List Char) (md : MdDict) (flipZ : Bool) : Except PyErr Arr3 :=
  (cnvrtCore amData md).map (fun a => if flipZ then a.reverse else a)

/-- `load_am_as_np`: the top-level pipeline, with the raw splitter's loop
given explicit fuel (`none` means that loop is still running).  The z-flip
parameter keeps its source default, `True`. -/
def loadAmAsNp (fuel : Nat) (file : List Char) : Option (Except PyErr (MdDict × Arr3)) :=
  match readAmira fuel file with
  | none => none
  | some (hdr, dat) =>
    some (
      match createMdDict (sortAmiraHeader hdr) with
      | .error e => .error e
      | .ok md =>
        match cnvrt dat md true with
        | .error e => .error e
        | .ok arr => .ok (md, arr))

/-- Shape test for the nested-list 3-D array: `z` slices, each of `y` rows
of `x` elements — axis order z, y, x with z outermost. -/
def shape3 (z y x : Nat) (a : Arr3) : Bool :=
  a.length == z && a.all fun pl => pl.length == y && pl.all fun r => r.length == x

/-- Number of the cascade branch a directive came from (`define`, `Content`,
`CoordType`, `BoundingBox`, `Units`). -/
def dirKind : Directive → Nat
  | .dims _ _ _ => 0
  | .dtype _ => 1
  | .coord _ => 2
  | .bbox _ => 3
  | .units _ _ => 4

/-- Which cascade branch fires on a line, if any; whether the `Units` branch
fires does not depend on the following line, so it is probed with `none`. -/
def lineKindAt (row : List String) : Option Nat :=
  (lineDirective row none).map dirKind

/-- The `array_dimensions` entry of an extraction result, when any. -/
def mdDims : Except PyErr MdDict → Option (Int × Int × Int)
  | .ok md => md.array_dimensions
  | .error _ => none

/-- The `units` entry of an extraction result, when any. -/
def mdUnitsField : Except PyErr MdDict → Option String
  | .ok md => md.units
  | .error _ => none

/-- The `coordinates` entry of an extraction result, when any. -/
def mdCoordinatesField : Except PyErr MdDict → Option String
  | .ok md => md.coordinates
  | .error _ => none

instance {ε α : Type} [DecidableEq ε] [DecidableEq α] : DecidableEq (Except ε α) := fun x y =>
  match x, y with
  | .error a, .error b =>
    if h : a = b then .isTrue (by rw [h]) else .isFalse (fun hh => h (Except.error.inj hh))
  | .ok a, .ok b =>
    if h : a = b then .isTrue (by rw [h]) else .isFalse (fun hh => h (Except.ok.inj hh))
  | .error _, .ok _ => .isFalse (fun hh => Except.noConfusion hh)
  | .ok _, .error _ => .isFalse (fun hh => Except.noConfusion hh)

/-- A well-formed two-voxel example file: header, sentinel, blank separator,
then eight payload bytes (two little-endian 4-byte `float` elements). -/
def exFile : List Char :=
  ("# AmiraMesh BINARY-LITTLE-ENDIAN 2.1\ndefine Lattice 1 1 2\nContent x float\n" ++
    "# Data section follows\n\nABCDEFGH").toList

/-- The metadata record extracted from `exFile`. -/
def exMd : MdDict :=
  { software_src := some "AmiraMesh", data_format := some "BINARY-LITTLE-ENDIAN",
    data_format_version := some "2.1", array_dimensions := some (1, 1, 2),
    data_type := some "float" }

/-- The `VoxelArray` loaded from `exFile` (z-flipped, the load default). -/
def exArr : Arr3 := [[[['E', 'F', 'G', 'H']]], [[['A', 'B', 'C', 'D']]]]

/-- Metadata declaring a 2-voxel float volume (x=2, y=1, z=1). -/
def mdPad : MdDict :=
  { array_dimensions := some (2, 1, 1), data_format := some "BINARY-LITTLE-ENDIAN",
    data_type := some "float" }

/-- Metadata declaring a one-voxel `short` volume. -/
def mdShort : MdDict :=
  { array_dimensions := some (1, 1, 1), data_format := some "BINARY-LITTLE-ENDIAN",
    data_type := some "short" }

/-- Metadata whose `data_format` is the recognized-but-undecodable `ASCII`. -/
def mdAscii : MdDict :=
  { array_dimensions := some (1, 1, 1), data_format := some "ASCII",
    data_type := some "float" }

/-- Metadata with dimensions but no `data_type` (header without `Content`). -/
def mdNoType : MdDict :=
  { array_dimensions := some (1, 1, 1), data_format := some "BINARY-LITTLE-ENDIAN" }

/-- The record extracted from a header consisting of the first line only. -/
def mdHeaderOnly : MdDict :=
  { software_src := some "AmiraMesh", data_format := some "BINARY-LITTLE-ENDIAN",
    data_format_version := some "2.1" }

/-- A first header line with the four fixed-position tokens. -/
def headLineEx : List String := ["#", "AmiraMesh", "BINARY-LITTLE-ENDIAN", "2.1"]

/-- Two distinct `define` directive lines. -/
def defineLineA : List String := ["define", "Lattice", "1", "2", "3"]

/-- Second `define` directive line with other dimensions. -/
def defineLineB : List String := ["define", "Lattice", "4", "5", "6"]

/-- A `Content` directive line. -/
def contentLineEx : List String := ["Content", "x", "float"]

/-- A `CoordType` directive line. -/
def coordLineEx : List String := ["CoordType", "uniform"]

/-- A `Units` directive line. -/
def unitsLineEx : List String := ["Units", "q", "mm"]

/-- The line following the `Units` line; its first token is `alpha`, its
token at position 1 is `beta`. -/
def afterUnitsLineEx : List String := ["alpha", "beta"]

/-- A tokenized header exercising the `Units` cross-line rule. -/
def linesUnitsEx : List (List String) := [headLineEx, unitsLineEx, afterUnitsLineEx]

theorem takeGroups_length (r c : Nat) (l : List α) : (takeGroups r c l).length = r := by
  induction r generalizing l with
  | zero => rfl
  | succ n ih => simp [takeGroups, ih]

theorem takeGroups_mem_length {r c : Nat} {l : List α} {g : List α}
    (hlen : r * c ≤ l.length) (hg : g ∈ takeGroups r c l) : g.length = c := by
  induction r generalizing l with
  | zero => simp [takeGroups] at hg
  | succ n ih =>
    simp only [takeGroups, List.mem_cons] at hg
    rcases hg with rfl | hg
    · have : c ≤ l.length := le_trans (by nlinarith) hlen
      simp [List.length_take]
      omega
    · refine ih ?_ hg
      simp only [List.length_drop]
      have : (n + 1) * c = n * c + c := by ring
      omega

theorem resizeElems_length (total width : Nat) (l : List Chunk) :
    (resizeElems total width l).length = total := by
  simp [resizeElems]
  omega

theorem shape3_build (z y x w : Nat) (l : List Chunk) :
    shape3 z y x ((takeGroups z (y * x) (resizeElems (z * (y * x)) w l)).map
      (takeGroups y x)) = true := by
  have hL : (resizeElems (z * (y * x)) w l).length = z * (y * x) :=
    resizeElems_length _ _ _
  simp only [shape3, Bool.and_eq_true, beq_iff_eq, List.all_eq_true, List.length_map,
    takeGroups_length, List.mem_map]
  refine ⟨trivial, ?_⟩
  rintro pl ⟨g, hg, rfl⟩
  have hgl : g.length = y * x := takeGroups_mem_length (le_of_eq hL.symm) hg
  refine ⟨takeGroups_length _ _ _, ?_⟩
  intro r hr
  exact takeGroups_mem_length (by rw [hgl]) hr

theorem shape3_reverse (z y x : Nat) (a : Arr3) :
    shape3 z y x a.reverse = shape3 z y x a := by
  simp [shape3]

/-- C7: for every payload and metadata record, decoding with the z-flip on
equals the flip-off result reversed along axis 0 only (the slices themselves
are unchanged), and reversing the flipped array along axis 0 recovers the
unflipped one — so flipping twice is the identity. -/
theorem cnvrt_flip_reverses_axis0 (d : List Char) (md : MdDict) :
    cnvrt d md true = Except.map List.reverse (cnvrt d md false) ∧
    Except.map List.reverse (cnvrt d md true) = cnvrt d md false := by
  cases hc : cnvrtCore d md <;>
    simp [cnvrt, hc, Except.map, List.reverse_reverse]

/-- C4 (counter-evidence): on a header declaring 2 voxels, a 4-byte payload
(one float element) decodes without error to an array whose missing element
was zero-filled, and a 12-byte payload (three elements) decodes to an array
silently truncated to the first two — `ndarray.resize` pads or truncates,
no `ShapeMismatchError` is raised. -/
theorem resize_pads_and_truncates :
    cnvrt "ABCD".toList mdPad true =
      .ok [[[['A', 'B', 'C', 'D'],
             [Char.ofNat 0, Char.ofNat 0, Char.ofNat 0, Char.ofNat 0]]]] ∧
    cnvrt "ABCDEFGHIJKL".toList mdPad true =
      .ok [[[['A', 'B', 'C', 'D'], ['E', 'F', 'G', 'H']]]] :=
  ⟨rfl, rfl⟩

/-- C5 (counter-evidence): any metadata record with extracted dimensions
whose `data_format` is `BINARY` or `ASCII` makes the decoder skip the
assignment of `flt_values` and then hit `flt_values.resize` with the name
unbound — an untyped `NameError`, not an `UnsupportedEncodingError`. -/
theorem unsupported_format_unbound_local (d : List Char) (md : MdDict) (b : Bool)
    (x y z : Int) (hdim : md.array_dimensions = some (x, y, z))
    (hfmt : md.data_format = some "BINARY" ∨ md.data_format = some "ASCII") :
    cnvrt d md b = .error (.nameError "flt_values") := by
  unfold cnvrt cnvrtCore
  rcases hfmt with h | h <;> rw [hdim, h] <;> rfl

theorem unsupported_format_unbound_local_witness :
    mdAscii.array_dimensions = some (1, 1, 1) ∧
    (mdAscii.data_format = some "BINARY" ∨ mdAscii.data_format = some "ASCII") ∧
    cnvrt "ABCD".toList mdAscii true = .error (.nameError "flt_values") :=
  ⟨rfl, Or.inr rfl,
    unsupported_format_unbound_local "ABCD".toList mdAscii true 1 1 1 rfl (Or.inr rfl)⟩

/-- C2 (counter-evidence): with `data_format = BINARY-LITTLE-ENDIAN`, a
declared `data_type` of `short` or `ushort` makes the decoder hand numpy the
dtype strings `<h4` / `<H4`, which numpy does not understand — decoding
fails with a `TypeError` instead of reading 2-byte signed/unsigned
little-endian integers. -/
theorem short_ushort_dtype_not_understood (d : List Char) (md : MdDict) (b : Bool)
    (x y z : Int) (hdim : md.array_dimensions = some (x, y, z))
    (hfmt : md.data_format = some "BINARY-LITTLE-ENDIAN")
    (hdt : md.data_type = some "short" ∨ md.data_type = some "ushort") :
    cnvrt d md b = .error (.typeError "data type not understood") := by
  unfold cnvrt cnvrtCore
  rcases hdt with h | h <;> rw [hdim, hfmt, h] <;> rfl

theorem readLine_append (cs : List Char) : (readLine cs).1 ++ (readLine cs).2 = cs := by
  induction cs with
  | nil => rfl
  | cons c cs ih =>
    simp only [readLine]
    split
    · rfl
    · simp [ih]

theorem readAmiraLoop_no_sentinel {file : List Char} (h : ¬ sentinelLine <:+: file) :
    ∀ (fuel : Nat) (cs : List Char) (acc : List (List Char)),
      cs <:+ file → readAmiraLoop fuel cs acc = none := by
  intro fuel
  induction fuel with
  | zero => intro cs acc _; rfl
  | succ n ih =>
    intro cs acc hcs
    have hline : ¬ (readLine cs).1 = sentinelLine := by
      intro he
      obtain ⟨s, hs⟩ := hcs
      refine h ⟨s, (readLine cs).2, ?_⟩
      rw [← he, List.append_assoc, readLine_append cs]
      exact hs
    simp only [readAmiraLoop]
    rw [if_neg hline]
    exact ih _ _ (List.IsSuffix.trans ⟨(readLine cs).1, readLine_append cs⟩ hcs)

/-- C3 (counter-evidence): on any file that does not contain the sentinel
line, the `while True` loop of `_read_amira` never returns, however long it
runs — end of file just yields empty readline results for ever, so no
`MalformedFileError` (or any error) is ever raised. -/
theorem no_sentinel_never_returns (file : List Char)
    (h : ¬ sentinelLine <:+: file) (fuel : Nat) : readAmira fuel file = none :=
  readAmiraLoop_no_sentinel h fuel file [] (List.suffix_refl file)

theorem no_sentinel_never_returns_witness :
    ¬ sentinelLine <:+: "hello world".toList ∧
    readAmira 7 "hello world".toList = none :=
  ⟨by decide, no_sentinel_never_returns _ (by decide) 7⟩

theorem short_ushort_dtype_not_understood_witness :
    mdShort.array_dimensions = some (1, 1, 1) ∧
    mdShort.data_format = some "BINARY-LITTLE-ENDIAN" ∧
    mdShort.data_type = some "short" ∧
    cnvrt "AB".toList mdShort true = .error (.typeError "data type not understood") :=
  ⟨rfl, rfl, rfl,
    short_ushort_dtype_not_understood "AB".toList mdShort true 1 1 1 rfl rfl (Or.inl rfl)⟩

theorem lineEffect_fixed_fields (md : MdDict) (row : List String)
    (next? : Option (List String)) :
    (lineEffect md row next?).software_src = md.software_src ∧
    (lineEffect md row next?).data_format = md.data_format ∧
    (lineEffect md row next?).data_format_version = md.data_format_version := by
  unfold lineEffect
  cases hd : lineDirective row next? with
  | none => exact ⟨rfl, rfl, rfl⟩
  | some dir =>
    cases dir with
    | units u c => cases c <;> exact ⟨rfl, rfl, rfl⟩
    | dims x y z => exact ⟨rfl, rfl, rfl⟩
    | dtype t => exact ⟨rfl, rfl, rfl⟩
    | coord t => exact ⟨rfl, rfl, rfl⟩
    | bbox b => exact ⟨rfl, rfl, rfl⟩

theorem scanLines_fixed_fields (lines : List (List String)) (md : MdDict) :
    (scanLines md lines).software_src = md.software_src ∧
    (scanLines md lines).data_format = md.data_format ∧
    (scanLines md lines).data_format_version = md.data_format_version := by
  induction lines generalizing md with
  | nil => exact ⟨rfl, rfl, rfl⟩
  | cons row rest ih =>
    have h1 := lineEffect_fixed_fields md row rest.head?
    have h2 := ih (lineEffect md row rest.head?)
    exact ⟨h2.1.trans h1.1, h2.2.1.trans h1.2.1, h2.2.2.trans h1.2.2⟩

theorem lineEffect_dims_none (md : MdDict) (row : List String)
    (next? : Option (List String)) (hnd : tryDefine row = none) :
    (lineEffect md row next?).array_dimensions = md.array_dimensions := by
  simp only [lineEffect, lineDirective, hnd]
  cases h1 : tryContent row with
  | some t => simp [applyDirective]
  | none =>
    cases h2 : tryCoordType row with
    | some t => simp [applyDirective]
    | none =>
      cases h3 : tryBBox row with
      | some b => simp [applyDirective]
      | none =>
        cases h4 : tryUnits row next? with
        | none => simp
        | some uc =>
          obtain ⟨u, c⟩ := uc
          cases c <;> simp [applyDirective]

theorem lineEffect_dtype_none (md : MdDict) (row : List String)
    (next? : Option (List String)) (hnc : tryContent row = none) :
    (lineEffect md row next?).data_type = md.data_type := by
  simp only [lineEffect, lineDirective, hnc]
  cases h0 : tryDefine row with
  | some v =>
    obtain ⟨x, y, z⟩ := v
    simp [applyDirective]
  | none =>
    cases h2 : tryCoordType row with
    | some t => simp [applyDirective]
    | none =>
      cases h3 : tryBBox row with
      | some b => simp [applyDirective]
      | none =>
        cases h4 : tryUnits row next? with
        | none => simp
        | some uc =>
          obtain ⟨u, c⟩ := uc
          cases c <;> simp [applyDirective]

theorem scanLines_dims_none (lines : List (List String)) (md : MdDict)
    (h : ∀ row ∈ lines, tryDefine row = none) :
    (scanLines md lines).array_dimensions = md.array_dimensions := by
  induction lines generalizing md with
  | nil => rfl
  | cons row rest ih =>
    show (scanLines (lineEffect md row rest.head?) rest).array_dimensions = _
    rw [ih _ (fun r hr => h r (List.mem_cons_of_mem _ hr)),
      lineEffect_dims_none _ _ _ (h row (List.mem_cons_self _ _))]

theorem scanLines_dtype_none (lines : List (List String)) (md : MdDict)
    (h : ∀ row ∈ lines, tryContent row = none) :
    (scanLines md lines).data_type = md.data_type := by
  induction lines generalizing md with
  | nil => rfl
  | cons row rest ih =>
    show (scanLines (lineEffect md row rest.head?) rest).data_type = _
    rw [ih _ (fun r hr => h r (List.mem_cons_of_mem _ hr)),
      lineEffect_dtype_none _ _ _ (h row (List.mem_cons_self _ _))]

theorem createMdDict_cons_ok (h : List String) (rest : List (List String))
    (hlen : 4 ≤ h.length) :
    createMdDict (h :: rest) =
      .ok (scanLines
        { software_src := h.get? 1, data_format := h.get? 2,
          data_format_version := h.get? 3 } (h :: rest)) := by
  rcases e1 : h.get? 1 with _ | a
  · exact absurd (List.get?_eq_none.mp e1) (by omega)
  rcases e2 : h.get? 2 with _ | b
  · exact absurd (List.get?_eq_none.mp e2) (by omega)
  rcases e3 : h.get? 3 with _ | c
  · exact absurd (List.get?_eq_none.mp e3) (by omega)
  simp only [List.get?_eq_getElem?] at e1 e2 e3
  simp [createMdDict, e1, e2, e3]

theorem createMdDict_short (h : List String) (rest : List (List String))
    (hlen : h.length < 4) : createMdDict (h :: rest) = .error .indexError := by
  have e3 : h.get? 3 = none := List.get?_eq_none.mpr (by omega)
  rcases e1 : h.get? 1 with _ | a <;> rcases e2 : h.get? 2 with _ | b <;>
    (simp only [List.get?_eq_getElem?] at e1 e2 e3) <;>
    simp [createMdDict, e1, e2, e3]

theorem cnvrt_dims_absent (p : List Char) (md : MdDict) (b : Bool)
    (h : md.array_dimensions = none) :
    cnvrt p md b = .error (.keyError "array_dimensions") := by
  unfold cnvrt cnvrtCore
  rw [h]
  rfl

theorem cnvrt_dtype_absent (p : List Char) (md : MdDict) (b : Bool) (x y z : Int)
    (hdim : md.array_dimensions = some (x, y, z))
    (hfmt : md.data_format = some "BINARY-LITTLE-ENDIAN")
    (hdt : md.data_type = none) :
    cnvrt p md b = .error (.keyError "data_type") := by
  unfold cnvrt cnvrtCore
  rw [hdim, hfmt, hdt]
  rfl

/-- C6 (counterexample): on a header with no `define` and no `Content` line,
extraction succeeds, and attempting to decode fails with the plain dict
`KeyError` on `array_dimensions` — the code has no `MissingRequiredFieldError`
type, so the claim's typed-error half is false at this input. -/
theorem missing_field_keyerror_counterexample :
    createMdDict [headLineEx] = .ok mdHeaderOnly ∧
    cnvrt "AB".toList mdHeaderOnly true = .error (.keyError "array_dimensions") :=
  ⟨rfl, rfl⟩

/-- C6 (amended): extraction never raises when the first header line has its
four fixed tokens — a header without a successful `define` (resp. `Content`)
extraction still yields a record, with `array_dimensions` (resp. `data_type`)
absent; the failure surfaces only when decoding is attempted, as the untyped
dict `KeyError` naming the absent key, there being no
`MissingRequiredFieldError` type. -/
theorem missing_fields_fail_at_decode :
    (∀ (h : List String) (rest : List (List String)) (p : List Char) (b : Bool),
      4 ≤ h.length → (∀ row ∈ h :: rest, tryDefine row = none) →
      (createMdDict (h :: rest)).isOk = true ∧
      ((createMdDict (h :: rest)).bind fun md => cnvrt p md b) =
        .error (.keyError "array_dimensions")) ∧
    (∀ (h : List String) (rest : List (List String)) (md : MdDict),
      4 ≤ h.length → (∀ row ∈ h :: rest, tryContent row = none) →
      createMdDict (h :: rest) = .ok md → md.data_type = none) ∧
    (∀ (p : List Char) (md : MdDict) (b : Bool) (x y z : Int),
      md.array_dimensions = some (x, y, z) →
      md.data_format = some "BINARY-LITTLE-ENDIAN" → md.data_type = none →
      cnvrt p md b = .error (.keyError "data_type")) := by
  refine ⟨?_, ?_, ?_⟩
  · intro h rest p b hlen hnd
    rw [createMdDict_cons_ok h rest hlen]
    refine ⟨rfl, ?_⟩
    show cnvrt p _ b = _
    exact cnvrt_dims_absent _ _ _ (scanLines_dims_none _ _ hnd)
  · intro h rest md hlen hnc hok
    rw [createMdDict_cons_ok h rest hlen] at hok
    have hmd := Except.ok.inj hok
    rw [← hmd]
    exact scanLines_dtype_none _ _ hnc
  · intro p md b x y z hdim hfmt hdt
    exact cnvrt_dtype_absent p md b x y z hdim hfmt hdt

theorem missing_fields_fail_at_decode_witness :
    ((createMdDict [headLineEx]).isOk = true ∧
      ((createMdDict [headLineEx]).bind fun md => cnvrt "AB".toList md true) =
        .error (.keyError "array_dimensions")) ∧
    mdHeaderOnly.data_type = none ∧
    cnvrt "AB".toList mdNoType true = .error (.keyError "data_type") :=
  ⟨missing_fields_fail_at_decode.1 headLineEx [] "AB".toList true (by decide) (by decide),
    missing_fields_fail_at_decode.2.1 headLineEx [] mdHeaderOnly (by decide) (by decide) rfl,
    missing_fields_fail_at_decode.2.2 "AB".toList mdNoType true 1 1 1 rfl rfl rfl⟩

/-- C10: when the first tokenized header line has fewer than four tokens,
extraction fails with the uncaught `IndexError` of the fixed-position reads,
whatever the remaining lines contain (so before any directive scanning);
conversely any returned record carries `software_src`, `data_format` and
`data_format_version` taken from positions 1, 2 and 3 of a first line that
must have had at least four tokens. -/
theorem first_line_fixed_positions :
    (∀ (h : List String) (rest : List (List String)), h.length < 4 →
      createMdDict (h :: rest) = .error .indexError) ∧
    (∀ (h : List String) (rest : List (List String)) (md : MdDict),
      createMdDict (h :: rest) = .ok md →
      4 ≤ h.length ∧ md.software_src = h.get? 1 ∧ md.data_format = h.get? 2 ∧
        md.data_format_version = h.get? 3) := by
  refine ⟨createMdDict_short, ?_⟩
  intro h rest md hok
  by_cases hlen : 4 ≤ h.length
  · rw [createMdDict_cons_ok h rest hlen] at hok
    have hmd := Except.ok.inj hok
    have hf := scanLines_fixed_fields (h :: rest)
      { software_src := h.get? 1, data_format := h.get? 2,
        data_format_version := h.get? 3 }
    rw [← hmd]
    exact ⟨hlen, hf.1, hf.2.1, hf.2.2⟩
  · rw [createMdDict_short h rest (by omega)] at hok
    cases hok

theorem first_line_fixed_positions_witness :
    createMdDict [["#", "x"]] = .error .indexError ∧
    (4 ≤ headLineEx.length ∧ mdHeaderOnly.software_src = headLineEx.get? 1 ∧
      mdHeaderOnly.data_format = headLineEx.get? 2 ∧
      mdHeaderOnly.data_format_version = headLineEx.get? 3) :=
  ⟨first_line_fixed_positions.1 ["#", "x"] [] (by decide),
    first_line_fixed_positions.2 headLineEx [] mdHeaderOnly rfl⟩

/-- C8 (counterexample): on the concrete header `linesUnitsEx` the `Units`
rule sets `units` from the `Units` line but sets `coordinates` to the token
at position 1 of the next line (`beta`), not to that line's first token
(`alpha`) as claimed. -/
theorem units_coordinates_counterexample :
    mdUnitsField (createMdDict linesUnitsEx) = some "mm" ∧
    mdCoordinatesField (createMdDict linesUnitsEx) = some "beta" ∧
    afterUnitsLineEx.get? 0 = some "alpha" ∧
    mdCoordinatesField (createMdDict linesUnitsEx) ≠ some "alpha" :=
  ⟨rfl, rfl, rfl, by decide⟩

/-- C8 (amended): for every tokenized line on which the four earlier cascade
branches fail, whose tokens contain `Units` (first occurrence at index i)
with a token at i+2, and which is followed by another line: `units` is set
to the token at i+2, and `coordinates` is set to the token at position 1 —
the second token — of the next line when that token exists, and is left
unchanged otherwise. -/
theorem units_rule_sets_units_and_second_token (md : MdDict) (row next : List String)
    (i : Nat) (u : String)
    (h0 : tryDefine row = none) (h1 : tryContent row = none)
    (h2 : tryCoordType row = none) (h3 : tryBBox row = none)
    (h4 : idxOf? "Units" row = some i) (h5 : row.get? (i + 2) = some u) :
    (lineEffect md row (some next)).units = some u ∧
    (lineEffect md row (some next)).coordinates =
      (match next.get? 1 with
       | some c => some c
       | none => md.coordinates) := by
  have hu : tryUnits row (some next) = some (u, next.get? 1) := by
    have h5g : row[i + 2]? = some u := by
      rw [← List.get?_eq_getElem?]; exact h5
    simp [tryUnits, h4, h5g]
  simp only [lineEffect, lineDirective, h0, h1, h2, h3, hu]
  cases h6 : next.get? 1 <;> simp [applyDirective]

theorem units_rule_witness :
    (lineEffect {} unitsLineEx (some afterUnitsLineEx)).units = some "mm" ∧
    (lineEffect {} unitsLineEx (some afterUnitsLineEx)).coordinates =
      (match afterUnitsLineEx.get? 1 with
       | some c => some c
       | none => ({} : MdDict).coordinates) :=
  units_rule_sets_units_and_second_token {} unitsLineEx afterUnitsLineEx 0 "mm"
    rfl rfl rfl rfl rfl rfl

theorem tryUnits_ext (row : List String) (next? : Option (List String)) :
    tryUnits row next? =
      (tryUnits row none).map (fun p => (p.1, next?.bind (·.get? 1))) := by
  unfold tryUnits
  cases h : idxOf? "Units" row with
  | none => rfl
  | some i =>
    cases h2 : row.get? (i + 2) with
    | none => simp
    | some u => simp

theorem lineEffect_next_irrelevant (md : MdDict) (row : List String)
    (next? : Option (List String)) (h : lineKindAt row ≠ some 4) :
    lineEffect md row next? = lineEffect md row none := by
  unfold lineEffect lineDirective
  cases h0 : tryDefine row with
  | some v => obtain ⟨x, y, z⟩ := v; rfl
  | none =>
    cases h1 : tryContent row with
    | some t => rfl
    | none =>
      cases h2 : tryCoordType row with
      | some t => rfl
      | none =>
        cases h3 : tryBBox row with
        | some b => rfl
        | none =>
          cases h4 : tryUnits row none with
          | none =>
            have hn : tryUnits row next? = none := by
              rw [tryUnits_ext row next?, h4]; rfl
            rw [hn]
          | some p =>
            obtain ⟨u, c⟩ := p
            exact absurd
              (by simp [lineKindAt, lineDirective, h0, h1, h2, h3, h4, dirKind]) h

theorem scanLines_no_units (lines : List (List String)) (md : MdDict)
    (h : ∀ row ∈ lines, lineKindAt row ≠ some 4) :
    scanLines md lines = lines.foldl (fun m r => lineEffect m r none) md := by
  induction lines generalizing md with
  | nil => rfl
  | cons row rest ih =>
    show scanLines (lineEffect md row rest.head?) rest = _
    rw [lineEffect_next_irrelevant md row rest.head? (h row (List.mem_cons_self _ _))]
    simp only [List.foldl_cons]
    exact ih _ (fun r hr => h r (List.mem_cons_of_mem _ hr))

theorem lineEffect_comm (x y : List String)
    (hx : lineKindAt x ≠ some 4) (hy : lineKindAt y ≠ some 4)
    (hk : x = y ∨ lineKindAt x = none ∨ lineKindAt y = none ∨
      lineKindAt x ≠ lineKindAt y) (z : MdDict) :
    lineEffect (lineEffect z x none) y none = lineEffect (lineEffect z y none) x none := by
  rcases hk with rfl | ha | hb | hne
  · rfl
  · have ha2 : (lineDirective x none).map dirKind = none := ha
    have hx0 : lineDirective x none = none := Option.map_eq_none'.mp ha2
    simp [lineEffect, hx0]
  · have hb2 : (lineDirective y none).map dirKind = none := hb
    have hy0 : lineDirective y none = none := Option.map_eq_none'.mp hb2
    simp [lineEffect, hy0]
  · cases hdx : lineDirective x none with
    | none => simp [lineEffect, hdx]
    | some dx =>
      cases hdy : lineDirective y none with
      | none => simp [lineEffect, hdy]
      | some dy =>
        have hdk : dirKind dx ≠ dirKind dy := by
          simp only [lineKindAt, hdx, hdy, Option.map_some'] at hne
          intro hh; exact hne (by rw [hh])
        have hx4 : dirKind dx ≠ 4 := by
          simp only [lineKindAt, hdx, Option.map_some'] at hx
          intro hh; exact hx (by rw [hh])
        have hy4 : dirKind dy ≠ 4 := by
          simp only [lineKindAt, hdy, Option.map_some'] at hy
          intro hh; exact hy (by rw [hh])
        simp only [lineEffect, hdx, hdy]
        cases dx <;> cases dy <;>
          first
          | rfl
          | exact absurd rfl hdk
          | exact absurd rfl hx4
          | exact absurd rfl hy4

/-- C9 (counterexample): the same set of directive lines in a different
order can yield different records — with two `define` lines the one scanned
last wins, so swapping them changes `array_dimensions`. -/
theorem header_reorder_counterexample :
    ([defineLineA, defineLineB] : List (List String)).Perm [defineLineB, defineLineA] ∧
    mdDims (createMdDict [headLineEx, defineLineA, defineLineB]) = some (4, 5, 6) ∧
    mdDims (createMdDict [headLineEx, defineLineB, defineLineA]) = some (1, 2, 3) ∧
    mdDims (createMdDict [headLineEx, defineLineA, defineLineB]) ≠
      mdDims (createMdDict [headLineEx, defineLineB, defineLineA]) :=
  ⟨by decide, rfl, rfl, by decide⟩

/-- C9 (amended): two tokenized headers with the same first line whose tails
are permutations of each other are extracted to identical records, provided
no line fires the `Units` rule (the claim's stated cross-line exception) and
no two distinct lines fire the same cascade branch — the restriction the
counterexample shows to be necessary, a later duplicate directive
overwriting an earlier one. -/
theorem header_reorder_same_record (h : List String) (t1 t2 : List (List String))
    (hperm : t1.Perm t2)
    (hnu : ∀ row ∈ h :: t1, lineKindAt row ≠ some 4)
    (hdisj : ∀ x ∈ t1, ∀ y ∈ t1,
      x = y ∨ lineKindAt x = none ∨ lineKindAt y = none ∨
        lineKindAt x ≠ lineKindAt y) :
    createMdDict (h :: t1) = createMdDict (h :: t2) := by
  have hnu2 : ∀ row ∈ h :: t2, lineKindAt row ≠ some 4 := by
    intro row hr
    rcases List.mem_cons.mp hr with rfl | hr
    · exact hnu row (List.mem_cons_self _ _)
    · exact hnu row (List.mem_cons_of_mem _ (hperm.symm.subset hr))
  have key : ∀ md : MdDict, scanLines md (h :: t1) = scanLines md (h :: t2) := by
    intro md
    rw [scanLines_no_units _ _ hnu, scanLines_no_units _ _ hnu2]
    simp only [List.foldl_cons]
    exact hperm.foldl_eq' (fun x hx y hy z =>
      lineEffect_comm x y (hnu x (List.mem_cons_of_mem _ hx))
        (hnu y (List.mem_cons_of_mem _ hy)) (hdisj x hx y hy) z) _
  by_cases hlen : 4 ≤ h.length
  · rw [createMdDict_cons_ok h t1 hlen, createMdDict_cons_ok h t2 hlen, key]
  · rw [createMdDict_short h t1 (by omega), createMdDict_short h t2 (by omega)]

theorem header_reorder_witness :
    createMdDict [headLineEx, contentLineEx, coordLineEx] =
      createMdDict [headLineEx, coordLineEx, contentLineEx] :=
  header_reorder_same_record headLineEx [contentLineEx, coordLineEx]
    [coordLineEx, contentLineEx] (by decide) (by decide) (by decide)

theorem cnvrtCore_ok_shape (d : List Char) (md : MdDict) (arr : Arr3) (x y z : Int)
    (hdim : md.array_dimensions = some (x, y, z))
    (hok : cnvrtCore d md = .ok arr) :
    shape3 z.toNat y.toNat x.toNat arr = true := by
  unfold cnvrtCore at hok
  split at hok
  · exact absurd hok (by simp)
  next x0 y0 z0 hdim0 =>
    rw [hdim0] at hdim
    simp only [Option.some.injEq, Prod.mk.injEq] at hdim
    obtain ⟨rfl, rfl, rfl⟩ := hdim
    split at hok
    · exact absurd hok (by simp)
    next fmt hfmt =>
      split at hok
      · split at hok
        · exact absurd hok (by simp)
        next pre hpre =>
          split at hok
          · exact absurd hok (by simp)
          next dt hdt =>
            split at hok
            · exact absurd hok (by simp)
            next code hcode =>
              split at hok
              · exact absurd hok (by simp)
              next w hw =>
                split at hok
                · exact absurd hok (by simp)
                · split at hok
                  · exact absurd hok (by simp)
                  · injection hok with hok
                    rw [← hok]
                    exact shape3_build _ _ _ _ _
      · exact absurd hok (by simp)

/-- C1: whenever the top-level load returns, the array it returns has shape
`(z, y, x)` — z the leading axis — for exactly the `(x, y, z)` dimensions
recorded in the returned metadata record (which only a `define` directive
can populate). -/
theorem load_shape_matches_dims (fuel : Nat) (file : List Char) (md : MdDict)
    (arr : Arr3) (x y z : Int)
    (hload : loadAmAsNp fuel file = some (.ok (md, arr)))
    (hdim : md.array_dimensions = some (x, y, z)) :
    shape3 z.toNat y.toNat x.toNat arr = true := by
  unfold loadAmAsNp at hload
  cases hra : readAmira fuel file with
  | none => rw [hra] at hload; cases hload
  | some pr =>
    obtain ⟨hdr, dat⟩ := pr
    rw [hra] at hload
    injection hload with hload
    cases hmd : createMdDict (sortAmiraHeader hdr) with
    | error e =>
      rw [hmd] at hload
      cases hload
    | ok md0 =>
      rw [hmd] at hload
      change (match cnvrt dat md0 true with
        | .error e => (Except.error e : Except PyErr (MdDict × Arr3))
        | .ok arr => .ok (md0, arr)) = Except.ok (md, arr) at hload
      cases hcv : cnvrt dat md0 true with
      | error e =>
        rw [hcv] at hload
        cases hload
      | ok arr0 =>
        rw [hcv] at hload
        simp only [Except.ok.injEq, Prod.mk.injEq] at hload
        obtain ⟨hmd0, harr0⟩ := hload
        rw [← hmd0] at hdim
        rw [← harr0]
        unfold cnvrt at hcv
        cases hcc : cnvrtCore dat md0 with
        | error e =>
          rw [hcc] at hcv
          exact absurd hcv (by simp [Except.map])
        | ok a0 =>
          rw [hcc] at hcv
          simp only [Except.map, if_pos, Except.ok.injEq] at hcv
          rw [← hcv]
          have hs := cnvrtCore_ok_shape dat md0 a0 x y z hdim hcc
          simpa [shape3_reverse] using hs

theorem load_shape_witness :
    loadAmAsNp 12 exFile = some (.ok (exMd, exArr)) ∧
    exMd.array_dimensions = some (1, 1, 2) ∧
    shape3 2 1 1 exArr = true :=
  ⟨rfl, rfl, load_shape_matches_dims 12 exFile exMd exArr 1 1 2 rfl rfl⟩

end Avizo
